import Mathlib

/-!
# Verification of the seedless wallet privacy-and-transaction subsystem

Shallow embedding of the wallet's core modules:

* `src/utils/jupiter.ts` — the gasless swap composer (`prepareSwap`,
  `filterComputeBudgetInstructions`, `fetchAddressLookupTables`);
* `src/utils/burner.ts` — the burner wallet manager and the two stealth
  address variants (key derivation, counter-based address enumeration);
* `src/screens/StealthScreen.tsx` — the sweep-all loop.

Network and secure-store effects are modelled by explicit state passing and
environment parameters; JavaScript numbers holding lamport amounts are
modelled as `Int` (they are exact integers in this range), SOL amounts as
`Rat`.  Solana `PublicKey` values are modelled by their canonical base58
strings (base58 encoding of a 32-byte key is a bijection onto canonical
strings, so `PublicKey.equals` coincides with string equality of the
canonical encodings).
-/

namespace Seedless

/-! ## Gasless swap composer (`src/utils/jupiter.ts`) -/

/-- `COMPUTE_BUDGET_PROGRAM_ID` from `src/constants/index.ts`. -/
def COMPUTE_BUDGET_PROGRAM_ID : String := "ComputeBudget111111111111111111111111111111"

/-- One account entry of a Jupiter instruction record
(`{pubkey, isSigner, isWritable}`). -/
structure JupAccountMeta where
  pubkey : String
  isSigner : Bool
  isWritable : Bool
deriving DecidableEq, Repr

/-- A raw instruction as returned by the Jupiter router
(`programId`, `accounts`, base64 `data`). -/
structure JupiterInstruction where
  programId : String
  accounts : List JupAccountMeta
  data : String
deriving DecidableEq, Repr

/-- The `POST /swap-instructions` response body used by `prepareSwap`. -/
structure SwapInstructionsResponse where
  computeBudgetInstructions : List JupiterInstruction
  setupInstructions : List JupiterInstruction
  swapInstruction : JupiterInstruction
  cleanupInstruction : Option JupiterInstruction
  addressLookupTableAddresses : List String
deriving DecidableEq, Repr

/-- A deserialized `TransactionInstruction`; `data` holds the decoded bytes. -/
structure TransactionInstruction where
  programId : String
  keys : List JupAccountMeta
  data : List Nat
deriving DecidableEq, Repr

/-- `deserializeInstruction` from `jupiter.ts`: maps a Jupiter instruction to
the native representation.  `base64Decode` models `Buffer.from(·, 'base64')`. -/
def deserializeInstruction (base64Decode : String → List Nat)
    (instruction : JupiterInstruction) : TransactionInstruction :=
  { programId := instruction.programId
    keys := instruction.accounts.map fun account =>
      { pubkey := account.pubkey
        isSigner := account.isSigner
        isWritable := account.isWritable }
    data := base64Decode instruction.data }

/-- `filterComputeBudgetInstructions` from `jupiter.ts`: keep an instruction
only if it is NOT from the Compute Budget program. -/
def filterComputeBudgetInstructions
    (instructions : List TransactionInstruction) : List TransactionInstruction :=
  instructions.filter fun instruction =>
    !(instruction.programId == COMPUTE_BUDGET_PROGRAM_ID)

/-- A resolved address lookup table snapshot
(`AddressLookupTableAccount`). -/
structure AddressLookupTableAccount where
  key : String
  addresses : List String
deriving DecidableEq, Repr

/-- `fetchAddressLookupTables` from `jupiter.ts`.  `resolve` models
`connection.getAddressLookupTable(pubkey).value` (`none` = the table does not
exist on chain).  The source loops over the addresses and pushes the resolved
value only `if (response.value)`. -/
def fetchAddressLookupTables (resolve : String → Option AddressLookupTableAccount) :
    List String → List AddressLookupTableAccount
  | [] => []
  | address :: rest =>
    match resolve address with
    | some table => table :: fetchAddressLookupTables resolve rest
    | none => fetchAddressLookupTables resolve rest

/-- The instruction-assembly portion of `prepareSwap` (Step 3 and Step 4):
setup instructions, then the swap instruction, then the cleanup instruction if
present, then the compute-budget filter. -/
def prepareSwapInstructions (base64Decode : String → List Nat)
    (swapInstructions : SwapInstructionsResponse) : List TransactionInstruction :=
  let allInstructions :=
    swapInstructions.setupInstructions.map (deserializeInstruction base64Decode)
      ++ [deserializeInstruction base64Decode swapInstructions.swapInstruction]
      ++ (match swapInstructions.cleanupInstruction with
          | some ix => [deserializeInstruction base64Decode ix]
          | none => [])
  filterComputeBudgetInstructions allInstructions

/-- Result record of `prepareSwap` (the quote field is threaded through
unchanged and omitted here). -/
structure SwapPrepareResult where
  instructions : List TransactionInstruction
  addressLookupTableAccounts : List AddressLookupTableAccount
deriving DecidableEq, Repr

/-- `prepareSwap` from `jupiter.ts`, given the router's swap-instructions
response (Steps 3–5; Steps 1–2 are the network fetches producing
`swapInstructions`). -/
def prepareSwap (base64Decode : String → List Nat)
    (resolve : String → Option AddressLookupTableAccount)
    (swapInstructions : SwapInstructionsResponse) : SwapPrepareResult :=
  { instructions := prepareSwapInstructions base64Decode swapInstructions
    addressLookupTableAccounts :=
      fetchAddressLookupTables resolve swapInstructions.addressLookupTableAddresses }

/-- The unfiltered concatenation [setup…, swap, cleanup?] assembled by
`prepareSwap` before compute-budget filtering. -/
def composedInstructionList (base64Decode : String → List Nat)
    (swapInstructions : SwapInstructionsResponse) : List TransactionInstruction :=
  swapInstructions.setupInstructions.map (deserializeInstruction base64Decode)
    ++ [deserializeInstruction base64Decode swapInstructions.swapInstruction]
    ++ (match swapInstructions.cleanupInstruction with
        | some ix => [deserializeInstruction base64Decode ix]
        | none => [])

/-- Whether an instruction is addressed to the compute-budget program. -/
def isComputeBudget (instruction : TransactionInstruction) : Bool :=
  instruction.programId == COMPUTE_BUDGET_PROGRAM_ID

/-! ## Key derivation (`src/utils/burner.ts`, both stealth variants)

Both variants hash a preimage with SHA-256 exactly once and feed the 32-byte
digest to `Keypair.fromSeed`.  The digest and the keypair construction are
opaque cryptographic primitives, passed in as function parameters; what the
code determines — and what we embed concretely — is the byte string that gets
hashed.  All strings involved are ASCII, so UTF-8 bytes coincide with the
character code points. -/

/-- UTF-8 bytes of an ASCII string (all strings in the derivation paths are
ASCII, where code point = byte). -/
def utf8Bytes (s : String) : List Nat :=
  s.data.map Char.toNat

/-- Lower-case hex digit for a value `< 16`, as produced by JavaScript
`Number.prototype.toString(16)`. -/
def hexChar (n : Nat) : Char :=
  if n < 10 then Char.ofNat (48 + n) else Char.ofNat (87 + n)

/-- One byte as two lower-case hex characters
(`b.toString(16).padStart(2, '0')`). -/
def byteToHexChars (b : Nat) : List Char :=
  [hexChar (b / 16), hexChar (b % 16)]

/-- `bytesToHex` from the second stealth variant: bytes to a lower-case hex
string. -/
def bytesToHex (bytes : List Nat) : String :=
  ⟨(bytes.map byteToHexChars).flatten⟩

/-- Numeric value of one hex digit (as `parseInt(·, 16)` sees it for a valid
digit). -/
def hexDigitVal (c : Char) : Nat :=
  if 48 ≤ c.toNat ∧ c.toNat ≤ 57 then c.toNat - 48
  else if 97 ≤ c.toNat ∧ c.toNat ≤ 102 then c.toNat - 87
  else if 65 ≤ c.toNat ∧ c.toNat ≤ 70 then c.toNat - 55
  else 0

/-- Pairs of hex characters to bytes (the loop body of `hexToBytes`). -/
def hexPairsToBytes : List Char → List Nat
  | c1 :: c2 :: rest => (hexDigitVal c1 * 16 + hexDigitVal c2) :: hexPairsToBytes rest
  | _ => []

/-- `hexToBytes` from the second stealth variant (also the behaviour of
`Buffer.from(hex, 'hex')` on well-formed hex used by the first variant). -/
def hexToBytes (hex : String) : List Nat :=
  hexPairsToBytes hex.data

/-- Preimage hashed by the FIRST stealth variant's
`deriveStealthKeypairForIndex`:
`Buffer.concat([seedBuffer, Buffer.from('stealth'), Buffer.from(index.toString())])`
where `seedBuffer = Buffer.from(masterSeed, 'hex')`. -/
def deriveInputV1 (masterSeed : String) (index : Nat) : List Nat :=
  hexToBytes masterSeed ++ utf8Bytes "stealth" ++ utf8Bytes (toString index)

/-- Preimages hashed by the FIRST stealth variant's `deriveStealthKeypairs`
(scan and spend): `Buffer.concat([seedBuffer, Buffer.from('scan')])` and
likewise for `'spend'`. -/
def deriveInputV1Label (masterSeed : String) (label : String) : List Nat :=
  hexToBytes masterSeed ++ utf8Bytes label

/-- Preimage hashed by the SECOND stealth variant's
`deriveStealthKeypairForIndex`:
`hashString(masterSeed + ':stealth:' + index.toString())`, i.e. the UTF-8
bytes of that concatenated string. -/
def deriveInputV2 (masterSeed : String) (index : Nat) : List Nat :=
  utf8Bytes (masterSeed ++ ":stealth:" ++ toString index)

/-- Preimages hashed by the SECOND stealth variant's `deriveStealthKeypairs`:
`hashString(masterSeed + ':scan')` and `hashString(masterSeed + ':spend')`. -/
def deriveInputV2Label (masterSeed : String) (label : String) : List Nat :=
  utf8Bytes (masterSeed ++ ":" ++ label)

/-- Modelled from the spec (§4.1), for comparison against the code: the byte
concatenation `secretBytes || domainLabel || (index as decimal string, if
present)` that the spec says is hashed. -/
def specDeriveInput (secretBytes : List Nat) (domainLabel : String)
    (index : Option Nat) : List Nat :=
  secretBytes ++ utf8Bytes domainLabel
    ++ (match index with
        | some i => utf8Bytes (toString i)
        | none => [])

/-- The second variant's `deriveStealthKeypairForIndex`, with the crypto
primitives (`SHA-256` digest on bytes, `Keypair.fromSeed` returning the base58
public key) as parameters: hash the preimage once, use the digest directly as
the seed. -/
def deriveStealthKeypairForIndexV2 (sha256 : List Nat → List Nat)
    (fromSeed : List Nat → String) (masterSeed : String) (index : Nat) : String :=
  fromSeed (sha256 (deriveInputV2 masterSeed index))

/-- The first variant's `deriveStealthKeypairForIndex`, same parameterisation. -/
def deriveStealthKeypairForIndexV1 (sha256 : List Nat → List Nat)
    (fromSeed : List Nat → String) (masterSeed : String) (index : Nat) : String :=
  fromSeed (sha256 (deriveInputV1 masterSeed index))

/-! ## Stealth address manager state (`src/utils/burner.ts`, stealth variants)

The manager's persistent state is the master seed (hex string under
`lazor_stealth_master_seed`) and the index counter (decimal string under
`lazor_stealth_index`, `none` when absent; `parseInt` of an absent value is
modelled by `Option.getD · 0` exactly as the source's
`indexStr ? parseInt(indexStr, 10) : 0`).

`derivePub` abstracts `deriveStealthKeypairForIndex(…).publicKey.toBase58()`:
a pure deterministic function of (master seed, index), identical wherever the
source calls it. -/

/-- `StealthAddress` record. -/
structure StealthAddress where
  index : Nat
  address : String
  createdAt : Nat
  label : Option String
deriving DecidableEq, Repr

/-- Persistent state read and written by the stealth address manager. -/
structure StealthState where
  masterSeed : String
  stealthIndex : Option Nat
deriving DecidableEq, Repr

/-- `generateStealthAddress` from `burner.ts`: read the counter (0 when
absent), persist `counter + 1`, derive at the old counter, return the record
with the current timestamp and the optional label. -/
def generateStealthAddress (derivePub : String → Nat → String)
    (st : StealthState) (now : Nat) (label : Option String) :
    StealthState × StealthAddress :=
  let index := st.stealthIndex.getD 0
  let st' := { st with stealthIndex := some (index + 1) }
  (st', { index := index
          address := derivePub st.masterSeed index
          createdAt := now
          label := label })

/-- `getAllStealthAddresses` from `burner.ts`: re-derive every index in
`[0, counter)`, returning records with `createdAt: 0` and no label. -/
def getAllStealthAddresses (derivePub : String → Nat → String)
    (st : StealthState) : List StealthAddress :=
  (List.range (st.stealthIndex.getD 0)).map fun i =>
    { index := i
      address := derivePub st.masterSeed i
      createdAt := 0
      label := none }

/-- `n` successive calls to `generateStealthAddress`, threading the state;
`now` and `label` give each call's timestamp and label. -/
def generateIter (derivePub : String → Nat → String) (now : Nat → Nat)
    (label : Nat → Option String) (st : StealthState) : Nat → StealthState
  | 0 => st
  | n + 1 =>
    (generateStealthAddress derivePub (generateIter derivePub now label st n)
      (now n) (label n)).1

/-! ## Burner wallet manager (`src/utils/burner.ts`)

The secure store holds the burner list (JSON under `lazor_burner_list`) and
one secret per burner under `lazor_burner_<id>`.  Ids are 16 hex characters
(8 random bytes), so the secret keys never collide with the list key, and
`id ↦ "lazor_burner_" ++ id` is injective; we therefore model the two key
families as the two fields of `BurnerState`, with secrets keyed directly by
id. -/

/-- `BurnerWallet` public record. -/
structure BurnerWallet where
  id : String
  label : String
  publicKey : String
  createdAt : Nat
deriving DecidableEq, Repr

/-- Association-list lookup, modelling `SecureStore.getItemAsync`. -/
def storeGet (store : List (String × String)) (key : String) : Option String :=
  (store.find? fun p => p.1 == key).map Prod.snd

/-- Association-list update, modelling `SecureStore.setItemAsync`. -/
def storeSet (store : List (String × String)) (key value : String) :
    List (String × String) :=
  (key, value) :: store.filter fun p => !(p.1 == key)

/-- Association-list removal, modelling `SecureStore.deleteItemAsync`. -/
def storeDelete (store : List (String × String)) (key : String) :
    List (String × String) :=
  store.filter fun p => !(p.1 == key)

/-- Persistent state of the burner wallet manager: the per-id secrets
(`lazor_burner_<id>` entries) and the stored list (`lazor_burner_list`). -/
structure BurnerState where
  secrets : List (String × String)
  list : List BurnerWallet
deriving DecidableEq, Repr

/-- Outcome of `createBurner`: the new state and record, or the state at the
point a storage write threw (`StorageError` propagates to the caller). -/
inductive CreateResult
  | ok (st : BurnerState) (burner : BurnerWallet)
  | storageError (st : BurnerState)
deriving DecidableEq, Repr

/-- `createBurner` from `burner.ts`.  The fresh keypair and random id come
from the environment (`id`, `publicKey`, `secretKeyBase64`); `secretWriteOk`
and `listWriteOk` say whether the two awaited store writes succeed.  The
source first awaits the secret write, then builds the record, then reads the
list, pushes, and awaits the list write — so a failing secret write leaves
the store untouched and a failing list write leaves the secret stored but the
list unchanged. -/
def createBurner (st : BurnerState) (id publicKey secretKeyBase64 label : String)
    (now : Nat) (secretWriteOk listWriteOk : Bool) : CreateResult :=
  if !secretWriteOk then .storageError st
  else
    let st1 : BurnerState := { st with secrets := storeSet st.secrets id secretKeyBase64 }
    let burner : BurnerWallet :=
      { id := id, label := label, publicKey := publicKey, createdAt := now }
    if !listWriteOk then .storageError st1
    else .ok { st1 with list := st1.list ++ [burner] } burner

/-- `getBurnerKeypair` from `burner.ts`: read `lazor_burner_<id>`; absent ⇒
`null`; otherwise decode the base64 secret (decode failure ⇒ `null`).
`decodeKeypair` models `Keypair.fromSecretKey(Buffer.from(·, 'base64'))`,
returning the keypair's base58 public key. -/
def getBurnerKeypair (decodeKeypair : String → Option String)
    (st : BurnerState) (id : String) : Option String :=
  match storeGet st.secrets id with
  | none => none
  | some secretKeyBase64 => decodeKeypair secretKeyBase64

/-- `destroyBurner` from `burner.ts` (state part).  The optional best-effort
sweep touches only the network, never the store; afterwards the secret is
unconditionally deleted and the id filtered out of the list. -/
def destroyBurner (st : BurnerState) (id : String) : BurnerState :=
  { secrets := storeDelete st.secrets id
    list := st.list.filter fun b => !(b.id == id) }

/-- `updateBurnerLabel` from `burner.ts`: rewrite the matching entry's label
in place. -/
def updateBurnerLabel (st : BurnerState) (id newLabel : String) : BurnerState :=
  { st with list := st.list.map fun b => if b.id == id then { b with label := newLabel } else b }

/-- One store-mutating operation of the burner wallet manager (`send` reads
but never writes the store, so it has no state transition). -/
inductive BurnerOp
  | create (id publicKey secretKeyBase64 label : String) (now : Nat)
      (secretWriteOk listWriteOk : Bool)
  | destroy (id : String)
  | updateLabel (id newLabel : String)
deriving DecidableEq, Repr

/-- State transition of one burner manager operation. -/
def applyBurnerOp (st : BurnerState) : BurnerOp → BurnerState
  | .create id publicKey secretKeyBase64 label now ok1 ok2 =>
    match createBurner st id publicKey secretKeyBase64 label now ok1 ok2 with
    | .ok st' _ => st'
    | .storageError st' => st'
  | .destroy id => destroyBurner st id
  | .updateLabel id newLabel => updateBurnerLabel st id newLabel

/-- Run a sequence of burner manager operations. -/
def applyBurnerOps (st : BurnerState) : List BurnerOp → BurnerState
  | [] => st
  | op :: rest => applyBurnerOps (applyBurnerOp st op) rest

/-- The id a `create` operation draws from the randomness environment, if
the operation is a create. -/
def createdId : BurnerOp → Option String
  | .create id _ _ _ _ _ _ => some id
  | _ => none

/-! ### `sendFromBurner` (`src/utils/burner.ts`)

The RPC interactions are recorded as a trace so that "fails without any RPC
interaction" is a statement about the trace.  `amount` is a SOL amount
(JavaScript number) modelled as `Rat`; `BURNER_LIMITS.MAX_SEND_SOL` is
`Infinity`, which no finite amount exceeds, modelled as `none` (no finite
limit). -/

/-- `BURNER_LIMITS.MAX_SEND_SOL = Infinity`: no finite limit. -/
def MAX_SEND_SOL : Option Rat := none

/-- Errors `sendFromBurner` can throw. -/
inductive SendError
  | amountExceedsLimit
  | burnerNotFound
  | invalidRecipient
  | rpcFailure (message : String)
deriving DecidableEq, Repr

/-- Network environment for `sendFromBurner`: the blockhash fetch and the
send/confirm round trip (each may throw). -/
structure SendEnv where
  latestBlockhash : Except String String
  sendRawTransaction : Except String String
deriving Repr

/-- `sendFromBurner` from `burner.ts`, returning the result together with
the ordered trace of RPC calls performed.  `isValidPubkey` models the
`new PublicKey(recipient)` constructor succeeding.  Source order: limit
check, secret-store read (not RPC), recipient parse, lamports computation
(`Math.floor(amount * LAMPORTS_PER_SOL)` — with no positivity check), then
`getLatestBlockhash`, `sendRawTransaction`, `confirmTransaction`. -/
def sendFromBurner (isValidPubkey : String → Bool)
    (decodeKeypair : String → Option String) (env : SendEnv) (st : BurnerState)
    (burnerId recipient : String) (amount : Rat) :
    Except SendError String × List String :=
  if (match MAX_SEND_SOL with | some m => decide (m < amount) | none => false) then
    (.error .amountExceedsLimit, [])
  else
    match getBurnerKeypair decodeKeypair st burnerId with
    | none => (.error .burnerNotFound, [])
    | some _ =>
      if !(isValidPubkey recipient) then (.error .invalidRecipient, [])
      else
        let _lamports : Int := (amount * 1000000000).floor
        match env.latestBlockhash with
        | .error e => (.error (.rpcFailure e), ["getLatestBlockhash"])
        | .ok _ =>
          match env.sendRawTransaction with
          | .error e =>
            (.error (.rpcFailure e), ["getLatestBlockhash", "sendRawTransaction"])
          | .ok signature =>
            (.ok signature,
              ["getLatestBlockhash", "sendRawTransaction", "confirmTransaction"])

/-! ## Sweep-all loop (`src/screens/StealthScreen.tsx`, `handleSweepAll`)

The `onPress` body iterates over the funded addresses inside one `try` block:
per address it derives the keypair (`continue` on failure), fetches the
ledger balance, computes `balance - rentExempt - fee`, skips (`continue`)
when non-positive, otherwise builds, signs, submits and confirms a transfer
of exactly that amount.  A throw anywhere in the loop propagates to the
`catch` outside the loop.  `getStealthKeypair` verifies the derived public
key against the stored address, so a returned keypair's public key equals the
address; the environment is therefore keyed by address. -/

/-- `rentExempt` constant from `handleSweepAll`. -/
def SWEEP_RENT_EXEMPT : Int := 890880

/-- `fee` constant from `handleSweepAll`. -/
def SWEEP_FEE : Int := 5000

/-- One entry of `fundedAddresses` as the loop sees it. -/
structure SweepAddr where
  address : String
  index : Nat
deriving DecidableEq, Repr

/-- Environment of the sweep loop: keypair derivability per (address, index),
ledger balance per address, and the outcome of the blockhash/submit/confirm
round trip per address (an `error` models a throw). -/
structure SweepEnv where
  keypairOk : String → Nat → Bool
  getBalance : String → Int
  sendTx : String → Int → Except String String

/-- What the loop body decides to do for one address, before any transaction
is sent. -/
inductive SweepAction
  | skipNoKeypair
  | skipInsufficient
  | attempt (lamports : Int)
deriving DecidableEq, Repr

/-- The decision portion of the loop body for one address: keypair check,
balance fetch, `sendAmount = balance - rentExempt - fee`, threshold test. -/
def sweepAddrAction (env : SweepEnv) (a : SweepAddr) : SweepAction :=
  if !(env.keypairOk a.address a.index) then .skipNoKeypair
  else
    let balance := env.getBalance a.address
    let sendAmount := balance - SWEEP_RENT_EXEMPT - SWEEP_FEE
    if sendAmount ≤ 0 then .skipInsufficient
    else .attempt sendAmount

/-- Observable per-address outcome of the loop (the source reports these via
`console.log`/`console.error` and the submitted transfers). -/
inductive SweepOutcome
  | skippedNoKeypair (address : String)
  | skippedInsufficient (address : String)
  | swept (address : String) (lamports : Int) (signature : String)
deriving DecidableEq, Repr

/-- The sweep loop.  Skips continue with the next address; a throw from the
transfer of one address escapes the loop (the `catch` sits outside it), so
the whole run ends in a single error and the remaining addresses are never
processed. -/
def handleSweepLoop (env : SweepEnv) :
    List SweepAddr → Except String (List SweepOutcome)
  | [] => .ok []
  | a :: rest =>
    match sweepAddrAction env a with
    | .skipNoKeypair =>
      (handleSweepLoop env rest).map (.skippedNoKeypair a.address :: ·)
    | .skipInsufficient =>
      (handleSweepLoop env rest).map (.skippedInsufficient a.address :: ·)
    | .attempt lamports =>
      match env.sendTx a.address lamports with
      | .error e => .error e
      | .ok signature =>
        (handleSweepLoop env rest).map (.swept a.address lamports signature :: ·)

/-! ## Theorems -/

/-- Helper: the resolution loop returns exactly the resolvable tables, in
order. -/
theorem fetchAddressLookupTables_eq_filterMap
    (resolve : String → Option AddressLookupTableAccount) (addresses : List String) :
    fetchAddressLookupTables resolve addresses = addresses.filterMap resolve := by
  induction addresses with
  | nil => rfl
  | cons address rest ih =>
    simp only [fetchAddressLookupTables, List.filterMap_cons]
    cases resolve address <;> simp [ih]

/-- C1: the instruction list returned by `prepareSwap` equals the
concatenation [setup…, swap, cleanup?] with exactly the compute-budget
instructions removed and no other instruction removed, the survivors kept in
their original relative order; with `k` compute-budget instructions
interspersed among `m` others, the output has exactly `m` instructions and
zero compute-budget instructions. -/
theorem prepareSwap_filters_compute_budget
    (base64Decode : String → List Nat)
    (resolve : String → Option AddressLookupTableAccount)
    (r : SwapInstructionsResponse) (k m : Nat)
    (hk : (composedInstructionList base64Decode r).countP
      (fun ix => isComputeBudget ix) = k)
    (hm : (composedInstructionList base64Decode r).countP
      (fun ix => !(isComputeBudget ix)) = m) :
    (prepareSwap base64Decode resolve r).instructions
        = (composedInstructionList base64Decode r).filter
            (fun ix => !(isComputeBudget ix))
      ∧ (prepareSwap base64Decode resolve r).instructions.length = m
      ∧ (prepareSwap base64Decode resolve r).instructions.countP
          (fun ix => isComputeBudget ix) = 0
      ∧ (prepareSwap base64Decode resolve r).instructions.Sublist
          (composedInstructionList base64Decode r) := by
  have hfilter : (prepareSwap base64Decode resolve r).instructions
      = (composedInstructionList base64Decode r).filter
          (fun ix => !(isComputeBudget ix)) := rfl
  refine ⟨hfilter, ?_, ?_, ?_⟩
  · rw [hfilter, ← List.countP_eq_length_filter, hm]
  · rw [hfilter]
    refine List.countP_eq_zero.mpr ?_
    intro a ha
    have h2 := (List.mem_filter.mp ha).2
    simp only [Bool.not_eq_true'] at h2
    simp [h2]
  · rw [hfilter]
    exact List.filter_sublist _

/-- Concrete router response for the C1 witness (end-to-end scenario C of the
spec): two setup instructions of which the first targets the compute-budget
program, one swap instruction, one cleanup instruction. -/
def c1Response : SwapInstructionsResponse :=
  { computeBudgetInstructions := []
    setupInstructions :=
      [ { programId := COMPUTE_BUDGET_PROGRAM_ID, accounts := [], data := "AA==" }
      , { programId := "TokenkegQfeZyiNwAJbNbGKPFXCWuBvf9Ss623VQ5DA"
          accounts := [{ pubkey := "u1", isSigner := true, isWritable := true }]
          data := "BB==" } ]
    swapInstruction :=
      { programId := "JUP6LkbZbjS1jKKwapdHNy74zcZ3tLUZoi5QNyVTaV4"
        accounts := [], data := "CC==" }
    cleanupInstruction :=
      some { programId := "11111111111111111111111111111111", accounts := [], data := "" }
    addressLookupTableAddresses := [] }

/-- Base64 decoder stub for concrete witnesses (the decoded bytes play no
role in the filtering claims). -/
def cDecode : String → List Nat := fun _ => []

/-- Witness for C1 at the concrete scenario-C response: `k = 1`, `m = 3`. -/
theorem prepareSwap_filters_compute_budget_witness :
    (composedInstructionList cDecode c1Response).countP
        (fun ix => isComputeBudget ix) = 1
    ∧ (composedInstructionList cDecode c1Response).countP
        (fun ix => !(isComputeBudget ix)) = 3
    ∧ ((prepareSwap cDecode (fun _ => none) c1Response).instructions
          = (composedInstructionList cDecode c1Response).filter
              (fun ix => !(isComputeBudget ix))
        ∧ (prepareSwap cDecode (fun _ => none) c1Response).instructions.length = 3
        ∧ (prepareSwap cDecode (fun _ => none) c1Response).instructions.countP
            (fun ix => isComputeBudget ix) = 0
        ∧ (prepareSwap cDecode (fun _ => none) c1Response).instructions.Sublist
            (composedInstructionList cDecode c1Response)) :=
  ⟨by decide, by decide,
    prepareSwap_filters_compute_budget cDecode (fun _ => none) c1Response 1 3
      (by decide) (by decide)⟩

/-- Concrete resolution environment for C3: table `T1` is live on chain,
table `T2` is not. -/
def c3Resolve : String → Option AddressLookupTableAccount :=
  fun address =>
    if address == "T1" then some { key := "T1", addresses := ["x"] } else none

/-- Concrete router response for C3: two lookup-table references. -/
def c3Response : SwapInstructionsResponse :=
  { computeBudgetInstructions := []
    setupInstructions := []
    swapInstruction :=
      { programId := "JUP6LkbZbjS1jKKwapdHNy74zcZ3tLUZoi5QNyVTaV4"
        accounts := [], data := "" }
    cleanupInstruction := none
    addressLookupTableAddresses := ["T1", "T2"] }

/-- C3 counterexample: with an unresolvable reference `T2`, compose does not
fail — it returns a plan whose lookup-table list covers only `T1`, a strict
subset of the two router-returned references. -/
theorem prepareSwap_partial_tables_counterexample :
    c3Resolve "T2" = none
    ∧ c3Response.addressLookupTableAddresses.length = 2
    ∧ (prepareSwap cDecode c3Resolve c3Response).addressLookupTableAccounts
        = [{ key := "T1", addresses := ["x"] }] := by
  refine ⟨rfl, rfl, ?_⟩
  decide

/-- C3 amended: an unresolvable table reference does not fail the compose
step; it is silently skipped, and the returned plan's lookup-table list is
exactly the resolvable subset of the router-returned references, in their
original order. -/
theorem prepareSwap_tables_are_resolvable_subset
    (base64Decode : String → List Nat)
    (resolve : String → Option AddressLookupTableAccount)
    (r : SwapInstructionsResponse) :
    (prepareSwap base64Decode resolve r).addressLookupTableAccounts
      = r.addressLookupTableAddresses.filterMap resolve :=
  fetchAddressLookupTables_eq_filterMap resolve r.addressLookupTableAddresses

/-- Helper: after `n` generations starting from an absent counter, the
stored counter reads back as `n` and the master seed is unchanged. -/
theorem generateIter_state (derivePub : String → Nat → String) (now : Nat → Nat)
    (label : Nat → Option String) (seed : String) :
    ∀ n : Nat,
      (generateIter derivePub now label ⟨seed, none⟩ n).stealthIndex.getD 0 = n
      ∧ (generateIter derivePub now label ⟨seed, none⟩ n).masterSeed = seed := by
  intro n
  induction n with
  | zero => exact ⟨rfl, rfl⟩
  | succ n ih =>
    simp only [generateIter, generateStealthAddress]
    simp [ih.1, ih.2]

/-- C5: starting from an absent counter, after `n` calls to
`generateStealthAddress` the list returned by `getAllStealthAddresses` has
exactly `n` records, whose indices are `0..n-1` in ascending order, and each
record's public address equals a fresh derivation at that record's index from
the same master seed. -/
theorem listAddresses_after_n_generates (derivePub : String → Nat → String)
    (now : Nat → Nat) (label : Nat → Option String) (seed : String) (n : Nat) :
    (getAllStealthAddresses derivePub
        (generateIter derivePub now label ⟨seed, none⟩ n)).length = n
    ∧ (getAllStealthAddresses derivePub
        (generateIter derivePub now label ⟨seed, none⟩ n)).map StealthAddress.index
        = List.range n
    ∧ ∀ r ∈ getAllStealthAddresses derivePub
        (generateIter derivePub now label ⟨seed, none⟩ n),
        r.address = derivePub seed r.index := by
  obtain ⟨hcounter, hseed⟩ := generateIter_state derivePub now label seed n
  refine ⟨?_, ?_, ?_⟩
  · simp [getAllStealthAddresses, hcounter]
  · simp [getAllStealthAddresses, hcounter, Function.comp_def]
  · intro r hr
    simp only [getAllStealthAddresses, hcounter, hseed, List.mem_map] at hr
    obtain ⟨i, _, rfl⟩ := hr
    rfl

/-- Derivation stub for concrete stealth witnesses: a deterministic pure
function of (seed, index). -/
def cDerivePub : String → Nat → String := fun seed i => seed ++ "#" ++ toString i

/-- Witness for C5 at `n = 3` (end-to-end scenario A of the spec). -/
theorem listAddresses_after_n_generates_witness :
    (getAllStealthAddresses cDerivePub
        (generateIter cDerivePub (fun _ => 7) (fun _ => none) ⟨"ab12", none⟩ 3)).length = 3
    ∧ (getAllStealthAddresses cDerivePub
        (generateIter cDerivePub (fun _ => 7) (fun _ => none) ⟨"ab12", none⟩ 3)).map
          StealthAddress.index = List.range 3
    ∧ ∀ r ∈ getAllStealthAddresses cDerivePub
        (generateIter cDerivePub (fun _ => 7) (fun _ => none) ⟨"ab12", none⟩ 3),
        r.address = cDerivePub "ab12" r.index :=
  listAddresses_after_n_generates cDerivePub (fun _ => 7) (fun _ => none) "ab12" 3

/-- C10: every record returned by `getAllStealthAddresses` carries
`createdAt = 0` and no label, whatever state the manager is in (in
particular, whatever timestamp and label the original
`generateStealthAddress` record carried). -/
theorem getAllStealthAddresses_zero_createdAt (derivePub : String → Nat → String)
    (st : StealthState) :
    ∀ r ∈ getAllStealthAddresses derivePub st, r.createdAt = 0 ∧ r.label = none := by
  intro r hr
  simp only [getAllStealthAddresses, List.mem_map] at hr
  obtain ⟨i, _, rfl⟩ := hr
  exact ⟨rfl, rfl⟩

/-- Witness for C10: generate one address with timestamp 99 and label
"gift"; the enumerated record at index 0 still reports `createdAt = 0` and no
label. -/
theorem getAllStealthAddresses_zero_createdAt_witness :
    ((generateStealthAddress cDerivePub ⟨"ab12", none⟩ 99 (some "gift")).2.createdAt = 99
      ∧ (generateStealthAddress cDerivePub ⟨"ab12", none⟩ 99 (some "gift")).2.label
          = some "gift")
    ∧ ({ index := 0, address := cDerivePub "ab12" 0, createdAt := 0, label := none }
        ∈ getAllStealthAddresses cDerivePub
            (generateStealthAddress cDerivePub ⟨"ab12", none⟩ 99 (some "gift")).1)
    ∧ (({ index := 0, address := cDerivePub "ab12" 0, createdAt := 0, label := none }
          : StealthAddress).createdAt = 0
        ∧ ({ index := 0, address := cDerivePub "ab12" 0, createdAt := 0, label := none }
            : StealthAddress).label = none) :=
  ⟨⟨rfl, rfl⟩, by decide,
    getAllStealthAddresses_zero_createdAt cDerivePub
      (generateStealthAddress cDerivePub ⟨"ab12", none⟩ 99 (some "gift")).1
      { index := 0, address := cDerivePub "ab12" 0, createdAt := 0, label := none }
      (by decide)⟩

/-- Helper: decoding a hex digit produced by `hexChar` recovers the value. -/
theorem hexDigitVal_hexChar : ∀ n < 16, hexDigitVal (hexChar n) = n := by
  decide

/-- Helper: `hexToBytes` inverts `bytesToHex` on byte lists. -/
theorem hexToBytes_bytesToHex (bytes : List Nat) (h : ∀ b ∈ bytes, b < 256) :
    hexToBytes (bytesToHex bytes) = bytes := by
  induction bytes with
  | nil => rfl
  | cons b rest ih =>
    have hb : b < 256 := h b (by simp)
    have h1 : hexDigitVal (hexChar (b / 16)) = b / 16 :=
      hexDigitVal_hexChar _ (by omega)
    have h2 : hexDigitVal (hexChar (b % 16)) = b % 16 :=
      hexDigitVal_hexChar _ (by omega)
    have ih2 := ih (fun x hx => h x (by simp [hx]))
    simp only [hexToBytes, bytesToHex, List.map_cons, List.flatten_cons,
      byteToHexChars] at ih2 ⊢
    simp [hexPairsToBytes, h1, h2, ih2]
    omega

/-- Helper: UTF-8 bytes of an appended string split. -/
theorem utf8Bytes_append (s t : String) :
    utf8Bytes (s ++ t) = utf8Bytes s ++ utf8Bytes t := by
  simp [utf8Bytes, String.data_append]

/-- C6 counterexample: at the all-zero 32-byte secret and index 0, the byte
string hashed by the second variant's `deriveStealthKeypairForIndex` differs
from the spec's concatenation `secretBytes || "stealth" || "0"` — the code
hashes the ASCII hex encoding of the secret with colon separators instead of
the raw secret bytes. -/
theorem deriveInputV2_ne_spec_concat :
    deriveInputV2 (bytesToHex (List.replicate 32 0)) 0
      ≠ specDeriveInput (List.replicate 32 0) "stealth" (some 0) := by
  decide

/-- C6 amended: the first derivation variant hashes exactly the spec's
concatenation `secretBytes || domainLabel || decimal index` (for its scan,
spend and stealth-index paths), while the second variant instead hashes the
UTF-8 bytes of the hex encoding of the secret joined to the domain label (and
decimal index) with ":" separators; both hash once with SHA-256 and use the
digest directly as the keypair seed. -/
theorem derivation_preimages (secretBytes : List Nat) (index : Nat)
    (sha256 : List Nat → List Nat) (fromSeed : List Nat → String)
    (h : ∀ b ∈ secretBytes, b < 256) :
    deriveInputV1 (bytesToHex secretBytes) index
        = specDeriveInput secretBytes "stealth" (some index)
    ∧ deriveInputV1Label (bytesToHex secretBytes) "scan"
        = specDeriveInput secretBytes "scan" none
    ∧ deriveInputV1Label (bytesToHex secretBytes) "spend"
        = specDeriveInput secretBytes "spend" none
    ∧ deriveInputV2 (bytesToHex secretBytes) index
        = utf8Bytes (bytesToHex secretBytes) ++ utf8Bytes ":stealth:"
            ++ utf8Bytes (toString index)
    ∧ deriveInputV2Label (bytesToHex secretBytes) "scan"
        = utf8Bytes (bytesToHex secretBytes) ++ utf8Bytes ":scan"
    ∧ deriveStealthKeypairForIndexV1 sha256 fromSeed (bytesToHex secretBytes) index
        = fromSeed (sha256 (specDeriveInput secretBytes "stealth" (some index)))
    ∧ deriveStealthKeypairForIndexV2 sha256 fromSeed (bytesToHex secretBytes) index
        = fromSeed (sha256 (utf8Bytes (bytesToHex secretBytes)
            ++ utf8Bytes ":stealth:" ++ utf8Bytes (toString index))) := by
  have hround := hexToBytes_bytesToHex secretBytes h
  have hv1 : deriveInputV1 (bytesToHex secretBytes) index
      = specDeriveInput secretBytes "stealth" (some index) := by
    simp [deriveInputV1, specDeriveInput, hround]
  have hv2 : deriveInputV2 (bytesToHex secretBytes) index
      = utf8Bytes (bytesToHex secretBytes) ++ utf8Bytes ":stealth:"
          ++ utf8Bytes (toString index) := by
    simp [deriveInputV2, utf8Bytes_append]
  refine ⟨hv1, ?_, ?_, hv2, ?_, ?_, ?_⟩
  · simp [deriveInputV1Label, specDeriveInput, hround]
  · simp [deriveInputV1Label, specDeriveInput, hround]
  · simp only [deriveInputV2Label, utf8Bytes_append, List.append_assoc,
      List.append_cancel_left_eq]
    decide
  · simp [deriveStealthKeypairForIndexV1, hv1]
  · simp [deriveStealthKeypairForIndexV2, hv2]

/-- Witness for C6 amended at the concrete secret `[0, 255, 16]`, index 7. -/
theorem derivation_preimages_witness :
    (∀ b ∈ [0, 255, 16], b < 256)
    ∧ (deriveInputV1 (bytesToHex [0, 255, 16]) 7
          = specDeriveInput [0, 255, 16] "stealth" (some 7)
        ∧ deriveInputV1Label (bytesToHex [0, 255, 16]) "scan"
            = specDeriveInput [0, 255, 16] "scan" none
        ∧ deriveInputV1Label (bytesToHex [0, 255, 16]) "spend"
            = specDeriveInput [0, 255, 16] "spend" none
        ∧ deriveInputV2 (bytesToHex [0, 255, 16]) 7
            = utf8Bytes (bytesToHex [0, 255, 16]) ++ utf8Bytes ":stealth:"
                ++ utf8Bytes (toString 7)
        ∧ deriveInputV2Label (bytesToHex [0, 255, 16]) "scan"
            = utf8Bytes (bytesToHex [0, 255, 16]) ++ utf8Bytes ":scan"
        ∧ deriveStealthKeypairForIndexV1 (fun bs => bs) (fun bs => bytesToHex bs)
              (bytesToHex [0, 255, 16]) 7
            = bytesToHex (specDeriveInput [0, 255, 16] "stealth" (some 7))
        ∧ deriveStealthKeypairForIndexV2 (fun bs => bs) (fun bs => bytesToHex bs)
              (bytesToHex [0, 255, 16]) 7
            = bytesToHex (utf8Bytes (bytesToHex [0, 255, 16])
                ++ utf8Bytes ":stealth:" ++ utf8Bytes (toString 7))) :=
  ⟨by decide,
    derivation_preimages [0, 255, 16] 7 (fun bs => bs) (fun bs => bytesToHex bs)
      (by decide)⟩

/-- Helper: lookup on a cons cell of the store. -/
theorem storeGet_cons (p : String × String) (rest : List (String × String))
    (k : String) :
    storeGet (p :: rest) k = if p.1 = k then some p.2 else storeGet rest k := by
  by_cases h : p.1 = k
  · simp [storeGet, List.find?_cons, h]
  · have hb : (p.1 == k) = false := by simp [h]
    simp [storeGet, List.find?_cons, hb, h]

/-- Helper: lookup after deletion — the deleted key reads absent, others are
untouched. -/
theorem storeGet_storeDelete (store : List (String × String)) (k target : String) :
    storeGet (storeDelete store target) k
      = if k = target then none else storeGet store k := by
  induction store with
  | nil => simp [storeGet, storeDelete]
  | cons p rest ih =>
    simp only [storeDelete, List.filter_cons] at ih ⊢
    by_cases hp : p.1 = target <;> by_cases hkt : k = target <;>
      by_cases hpk : p.1 = k <;>
      simp_all [storeGet_cons]

/-- Helper: lookup after an update — the written key reads the new value,
others are untouched. -/
theorem storeGet_storeSet (store : List (String × String)) (k target value : String) :
    storeGet (storeSet store target value) k
      = if k = target then some value else storeGet store k := by
  have hdel : storeGet (storeDelete store target) k
      = if k = target then none else storeGet store k :=
    storeGet_storeDelete store k target
  by_cases hkt : k = target
  · simp [storeSet, storeGet_cons, hkt, storeDelete]
  · simp only [storeSet, storeGet_cons]
    rw [if_neg (fun h : target = k => hkt h.symm), if_neg hkt]
    simpa [storeDelete, hkt] using hdel

/-- Helper: once the secret for `id` is absent, no sequence of burner
manager operations whose create steps draw fresh ids (≠ `id`) makes it
present again. -/
theorem applyBurnerOps_secret_stays_none (id : String) :
    ∀ (ops : List BurnerOp) (st : BurnerState),
      storeGet st.secrets id = none →
      (∀ op ∈ ops, createdId op ≠ some id) →
      storeGet (applyBurnerOps st ops).secrets id = none := by
  intro ops
  induction ops with
  | nil => exact fun st h _ => h
  | cons op rest ih =>
    intro st h hfresh
    refine ih (applyBurnerOp st op) ?_ (fun o ho => hfresh o (by simp [ho]))
    cases op with
    | create id2 pub sec label now ok1 ok2 =>
      have hne : ¬ id = id2 := fun he =>
        hfresh (.create id2 pub sec label now ok1 ok2) (by simp)
          (by simp [createdId, he])
      cases ok1 <;> cases ok2 <;>
        simp [applyBurnerOp, createBurner, storeGet_storeSet, hne, h]
    | destroy id2 =>
      simp [applyBurnerOp, destroyBurner, storeGet_storeDelete, h]
    | updateLabel id2 newLabel =>
      simpa [applyBurnerOp, updateBurnerLabel] using h

/-- C7: after `destroyBurner id`, `getBurnerKeypair id` returns absent, and
it stays absent across every later sequence of burner manager operations
(whose create steps draw fresh random ids): no operation can recover the
deleted secret. -/
theorem destroyed_burner_keypair_absent (decodeKeypair : String → Option String)
    (st : BurnerState) (id : String) (ops : List BurnerOp)
    (hfresh : ∀ op ∈ ops, createdId op ≠ some id) :
    getBurnerKeypair decodeKeypair (applyBurnerOps (destroyBurner st id) ops) id
      = none := by
  have hnone : storeGet (destroyBurner st id).secrets id = none := by
    simp [destroyBurner, storeGet_storeDelete]
  have hstays := applyBurnerOps_secret_stays_none id ops _ hnone hfresh
  simp [getBurnerKeypair, hstays]

/-- Witness for C7: destroy burner `aa`, then create another burner, rename,
and destroy it — `getBurnerKeypair "aa"` still returns absent. -/
theorem destroyed_burner_keypair_absent_witness :
    (∀ op ∈ [BurnerOp.create "bb" "pubB" "secB" "lab" 5 true true,
             BurnerOp.updateLabel "aa" "renamed", BurnerOp.destroy "bb"],
        createdId op ≠ some "aa")
    ∧ getBurnerKeypair (fun s => some s)
        (applyBurnerOps
          (destroyBurner
            { secrets := [("aa", "secA")]
              list := [{ id := "aa", label := "A", publicKey := "pubA", createdAt := 1 }] }
            "aa")
          [BurnerOp.create "bb" "pubB" "secB" "lab" 5 true true,
           BurnerOp.updateLabel "aa" "renamed", BurnerOp.destroy "bb"]) "aa"
        = none :=
  ⟨by decide,
    destroyed_burner_keypair_absent (fun s => some s)
      { secrets := [("aa", "secA")]
        list := [{ id := "aa", label := "A", publicKey := "pubA", createdAt := 1 }] }
      "aa"
      [BurnerOp.create "bb" "pubB" "secB" "lab" 5 true true,
       BurnerOp.updateLabel "aa" "renamed", BurnerOp.destroy "bb"]
      (by decide)⟩

/-- C9: `createBurner` writes the secret before the list entry, so in every
execution — including those where a store write fails partway — a committed
list entry for the new id implies its secret is stored; and if the secret
write failed, the list is unchanged. -/
theorem createBurner_list_entry_implies_secret (st : BurnerState)
    (id publicKey secret label : String) (now : Nat) (ok1 ok2 : Bool)
    (hfresh : ∀ b ∈ st.list, b.id ≠ id) :
    (ok1 = false →
        (applyBurnerOp st (.create id publicKey secret label now ok1 ok2)).list
          = st.list)
    ∧ ((∃ b ∈ (applyBurnerOp st (.create id publicKey secret label now ok1 ok2)).list,
          b.id = id) →
        storeGet
          (applyBurnerOp st (.create id publicKey secret label now ok1 ok2)).secrets id
          = some secret) := by
  cases ok1 with
  | false =>
    refine ⟨fun _ => rfl, fun hex => ?_⟩
    obtain ⟨b, hb, hid⟩ := hex
    have hb2 : b ∈ st.list := by simpa [applyBurnerOp, createBurner] using hb
    exact absurd hid (hfresh b hb2)
  | true =>
    refine ⟨(fun hc => nomatch hc), fun _ => ?_⟩
    cases ok2 <;> simp [applyBurnerOp, createBurner, storeGet_storeSet]

/-- Witness for C9 at a concrete state, covering a successful create. -/
theorem createBurner_list_entry_implies_secret_witness :
    (∀ b ∈ ([] : List BurnerWallet), b.id ≠ "cc")
    ∧ ((true = false →
          (applyBurnerOp { secrets := [], list := [] }
            (.create "cc" "pubC" "secC" "label" 9 true false)).list = [])
        ∧ ((∃ b ∈ (applyBurnerOp { secrets := [], list := [] }
              (.create "cc" "pubC" "secC" "label" 9 true false)).list, b.id = "cc") →
            storeGet (applyBurnerOp { secrets := [], list := [] }
              (.create "cc" "pubC" "secC" "label" 9 true false)).secrets "cc"
              = some "secC")) :=
  ⟨by decide,
    createBurner_list_entry_implies_secret { secrets := [], list := [] }
      "cc" "pubC" "secC" "label" 9 true false (by decide)⟩

/-- C2: for an address whose keypair derives correctly, the sweep loop
attempts a transfer iff the ledger balance minus rent reserve minus fee is
positive, the attempted amount is exactly that difference, and a
non-positive spendable amount makes the loop record a skip and continue, not
fail. -/
theorem sweep_attempts_iff_positive_spendable (env : SweepEnv) (a : SweepAddr)
    (rest : List SweepAddr)
    (h : env.keypairOk a.address a.index = true) :
    ((∃ amt, sweepAddrAction env a = .attempt amt)
        ↔ env.getBalance a.address - SWEEP_RENT_EXEMPT - SWEEP_FEE > 0)
    ∧ (∀ amt, sweepAddrAction env a = .attempt amt →
        amt = env.getBalance a.address - SWEEP_RENT_EXEMPT - SWEEP_FEE)
    ∧ (env.getBalance a.address - SWEEP_RENT_EXEMPT - SWEEP_FEE ≤ 0 →
        handleSweepLoop env (a :: rest)
          = (handleSweepLoop env rest).map (.skippedInsufficient a.address :: ·)) := by
  by_cases hle : env.getBalance a.address - SWEEP_RENT_EXEMPT - SWEEP_FEE ≤ 0
  · refine ⟨⟨?_, fun hpos => absurd hpos (by omega)⟩, ?_, fun _ => ?_⟩
    · rintro ⟨amt, hamt⟩
      simp [sweepAddrAction, h, hle] at hamt
    · intro amt hamt
      simp [sweepAddrAction, h, hle] at hamt
    · simp [handleSweepLoop, sweepAddrAction, h, hle]
  · have hact : sweepAddrAction env a
        = .attempt (env.getBalance a.address - SWEEP_RENT_EXEMPT - SWEEP_FEE) := by
      simp [sweepAddrAction, h, hle]
    refine ⟨⟨fun _ => by omega, fun _ => ⟨_, hact⟩⟩, ?_, fun hc => absurd hc hle⟩
    intro amt hamt
    rw [hact] at hamt
    cases hamt
    rfl

/-- Concrete sweep environment for the C2 witness: ledger balance 1000000
lamports everywhere, keypairs always derivable, transfers succeed. -/
def c2Env : SweepEnv :=
  { keypairOk := fun _ _ => true
    getBalance := fun _ => 1000000
    sendTx := fun _ _ => .ok "sig1" }

/-- Witness for C2 at balance 1000000: spendable 104120 > 0. -/
theorem sweep_attempts_iff_positive_spendable_witness :
    c2Env.keypairOk "S1" 0 = true
    ∧ (((∃ amt, sweepAddrAction c2Env { address := "S1", index := 0 } = .attempt amt)
          ↔ c2Env.getBalance "S1" - SWEEP_RENT_EXEMPT - SWEEP_FEE > 0)
        ∧ (∀ amt, sweepAddrAction c2Env { address := "S1", index := 0 } = .attempt amt →
            amt = c2Env.getBalance "S1" - SWEEP_RENT_EXEMPT - SWEEP_FEE)
        ∧ (c2Env.getBalance "S1" - SWEEP_RENT_EXEMPT - SWEEP_FEE ≤ 0 →
            handleSweepLoop c2Env ({ address := "S1", index := 0 } :: [])
              = (handleSweepLoop c2Env []).map (.skippedInsufficient "S1" :: ·))) :=
  ⟨rfl, sweep_attempts_iff_positive_spendable c2Env { address := "S1", index := 0 } [] rfl⟩

/-- Concrete sweep environment for C4: the transfer from address `A1`
throws, any other address's transfer would succeed. -/
def c4Env : SweepEnv :=
  { keypairOk := fun _ _ => true
    getBalance := fun _ => 1000000
    sendTx := fun address _ => if address == "A1" then .error "boom" else .ok "sig2" }

/-- C4 counterexample: with two funded addresses where the first transfer
throws, the whole sweep ends in the single aggregated failure `boom` — no
per-address outcome list is produced, and the second address, whose transfer
would have succeeded, is never swept. -/
theorem sweep_aborts_on_failure_counterexample :
    handleSweepLoop c4Env
        [{ address := "A1", index := 0 }, { address := "A2", index := 1 }]
      = .error "boom"
    ∧ c4Env.sendTx "A2" 104120 = .ok "sig2" := by
  exact ⟨rfl, rfl⟩

/-- C4 amended: a keypair-derivation failure or a non-positive spendable
amount is skipped and the loop continues, but a throwing transfer aborts the
sweep of all remaining addresses and surfaces as one aggregated failure. -/
theorem sweep_transfer_failure_aborts (env : SweepEnv) (a : SweepAddr)
    (rest : List SweepAddr) (amt : Int) (e : String)
    (hact : sweepAddrAction env a = .attempt amt)
    (hsend : env.sendTx a.address amt = .error e) :
    handleSweepLoop env (a :: rest) = .error e := by
  simp [handleSweepLoop, hact, hsend]

/-- Witness for C4 amended: address `A1` fails with `boom`, so the loop
aborts before reaching `A3`. -/
theorem sweep_transfer_failure_aborts_witness :
    sweepAddrAction c4Env { address := "A1", index := 0 } = .attempt 104120
    ∧ c4Env.sendTx "A1" 104120 = .error "boom"
    ∧ handleSweepLoop c4Env
        [{ address := "A1", index := 0 }, { address := "A3", index := 2 }]
      = .error "boom" :=
  ⟨by decide, rfl,
    sweep_transfer_failure_aborts c4Env { address := "A1", index := 0 }
      [{ address := "A3", index := 2 }] 104120 "boom" (by decide) rfl⟩

/-- Concrete environment and state for C8: burner `b1` exists, network calls
succeed. -/
def c8Env : SendEnv :=
  { latestBlockhash := .ok "hash1", sendRawTransaction := .ok "sigS" }

/-- Concrete burner state for C8. -/
def c8State : BurnerState :=
  { secrets := [("b1", "sec")], list := [] }

/-- C8 counterexample: with the non-positive amount 0 and a valid recipient,
`sendFromBurner` does not fail before the network — it performs all three
RPC calls and broadcasts a zero-lamport transfer. -/
theorem send_nonpositive_amount_reaches_network :
    sendFromBurner (fun _ => true) (fun s => some s) c8Env c8State "b1" "rcpt" 0
      = (.ok "sigS",
          ["getLatestBlockhash", "sendRawTransaction", "confirmTransaction"]) := by
  rfl

/-- C8 amended: `sendFromBurner` checks the burner's existence and the
recipient's address format before any RPC call and fails with the
corresponding error and an empty RPC trace; amount positivity is never
validated — whenever the burner exists and the recipient parses, the network
phase is entered regardless of the amount's sign. -/
theorem sendFromBurner_validation (isValidPubkey : String → Bool)
    (decodeKeypair : String → Option String) (env : SendEnv) (st : BurnerState)
    (burnerId recipient : String) (amount : Rat) :
    (getBurnerKeypair decodeKeypair st burnerId = none →
        sendFromBurner isValidPubkey decodeKeypair env st burnerId recipient amount
          = (.error .burnerNotFound, []))
    ∧ (∀ kp, getBurnerKeypair decodeKeypair st burnerId = some kp →
        isValidPubkey recipient = false →
        sendFromBurner isValidPubkey decodeKeypair env st burnerId recipient amount
          = (.error .invalidRecipient, []))
    ∧ (∀ kp, getBurnerKeypair decodeKeypair st burnerId = some kp →
        isValidPubkey recipient = true →
        (sendFromBurner isValidPubkey decodeKeypair env st burnerId recipient amount).2
          ≠ []) := by
  refine ⟨?_, ?_, ?_⟩
  · intro h
    simp [sendFromBurner, MAX_SEND_SOL, h]
  · intro kp hkp hval
    simp [sendFromBurner, MAX_SEND_SOL, hkp, hval]
  · intro kp hkp hval
    simp only [sendFromBurner, MAX_SEND_SOL, hkp, hval]
    cases henv : env.latestBlockhash with
    | error e => simp [henv]
    | ok bh =>
      cases hsend : env.sendRawTransaction with
      | error e => simp [henv, hsend]
      | ok sig => simp [henv, hsend]

/-- Witness for C8 amended: a missing burner id fails with not-found and an
empty RPC trace. -/
theorem sendFromBurner_validation_witness :
    getBurnerKeypair (fun s => some s) c8State "zz" = none
    ∧ sendFromBurner (fun _ => true) (fun s => some s) c8Env c8State "zz" "rcpt" 1
        = (.error .burnerNotFound, []) :=
  ⟨by decide,
    (sendFromBurner_validation (fun _ => true) (fun s => some s) c8Env c8State
      "zz" "rcpt" 1).1 (by decide)⟩

end Seedless
